import Mathlib

/-!
Shallow embedding of the nakama-kpf push-notification adapter
(src/push_client.go and the RPC handler file) in Lean 4.

The Go code is a thin adapter over two vendor SDKs (apns2 and the Firebase
admin SDK) plus Go standard-library collaborators (database/sql and
encoding/json).  The adapter logic itself is embedded as executable Lean
functions translated line by line from the source; every external
collaborator (file system, vendor HTTP calls, database query, JSON
deserialization) is a parameter, collected in a `World` record of oracles.
Each adapter operation returns the updated client state, a trace of the
vendor-SDK calls and log lines it performed, and its Go return value
(`Except GoError` stands for the `error` result).
-/

namespace Kpf

/-- Model of Go `error` values as they occur in this code base:
`simple msg` is an `errors.New` style error or an opaque library error
carrying a message; `deliveryFailed inner` is the
`PushNotificationDeliveryFailed` wrapper struct (whose `Error()` is the
message of `inner`); `badInput` is the `hiro.ErrBadInput` sentinel;
`sqlErrNoRows` is the `sql.ErrNoRows` sentinel that the code tests for
with `errors.Is`. -/
inductive GoError where
  | simple (msg : String)
  | deliveryFailed (inner : GoError)
  | badInput
  | sqlErrNoRows
deriving DecidableEq

/-- APNSCredentials from src/push_client.go: immutable configuration record. -/
structure APNSCredentials where
  Environment : String
  TeamID : String
  Topic : String
  P8AuthKeyID : String
  P8AuthKeyFilePath : String
deriving DecidableEq

/-- FCMCredentials from src/push_client.go. -/
structure FCMCredentials where
  ProjectID : String
  CredentialsFilePath : String
deriving DecidableEq

/-- Go map lookup `env[k]` on a `map[string]string`: a missing key yields
the zero value, the empty string.  The map itself is embedded as an
association list. -/
def envGet (env : List (String × String)) (k : String) : String :=
  match env.lookup k with
  | some v => v
  | none => ""

/-- NewAPNSCredentialsFromEnv from src/push_client.go: direct key lookups,
no validation, total (the Go function has no error result). -/
def NewAPNSCredentialsFromEnv (env : List (String × String)) : APNSCredentials :=
  { Environment := envGet env "APNS_ENVIRONMENT"
    TeamID := envGet env "APNS_TEAM_ID"
    Topic := envGet env "APNS_TOPIC"
    P8AuthKeyID := envGet env "APNS_P8_AUTH_KEY_ID"
    P8AuthKeyFilePath := envGet env "APNS_P8_AUTH_KEY_FILE_PATH" }

/-- NewFCMCredentialsFromEnv from src/push_client.go. -/
def NewFCMCredentialsFromEnv (env : List (String × String)) : FCMCredentials :=
  { ProjectID := envGet env "FCM_PROJECT_ID"
    CredentialsFilePath := envGet env "FCM_CREDENTIALS_FILE_PATH" }

/-- The `token.Token` record of the apns2 library: the P8 auth key (kept
opaque as the string the auth-key oracle returned), key id and team id. -/
structure Token where
  AuthKey : String
  KeyID : String
  TeamID : String
deriving DecidableEq

/-- Host constant of the apns2 library. -/
def HostDevelopment : String := "https://api.sandbox.push.apple.com"

/-- Host constant of the apns2 library. -/
def HostProduction : String := "https://api.push.apple.com"

/-- Default host of a freshly built apns2 client (the library defaults to
the development host; the code immediately overrides it). -/
def DefaultHost : String := HostDevelopment

/-- The `apns2.Client` value as far as this code observes it: the signing
token it was built from and the target host. -/
structure Client where
  Token : Token
  Host : String
deriving DecidableEq

/-- apns2.NewTokenClient. -/
def NewTokenClient (t : Token) : Client :=
  { Token := t, Host := DefaultHost }

/-- The `Client.Production()` builder of apns2: selects the production host. -/
def Client.Production (c : Client) : Client :=
  { c with Host := HostProduction }

/-- The `Client.Development()` builder of apns2: selects the sandbox host. -/
def Client.Development (c : Client) : Client :=
  { c with Host := HostDevelopment }

/-- The apns2 `Response`: HTTP status code and the rejection reason field. -/
structure Response where
  StatusCode : Nat
  Reason : String
deriving DecidableEq

/-- Response.Sent() of apns2: true exactly when the status code is 200. -/
def Response.Sent (r : Response) : Bool :=
  r.StatusCode == 200

/-- The apns2 payload as built by this code: alert title, alert body, and
the custom key-value entries (`Custom` prepends, and map lookup takes the
most recent binding, which `List.lookup` mirrors). -/
structure Payload where
  alertTitle : String
  alertBody : String
  custom : List (String × String)
deriving DecidableEq

/-- payload.NewPayload() of apns2. -/
def Payload.NewPayload : Payload :=
  { alertTitle := "", alertBody := "", custom := [] }

/-- Payload.AlertTitle of apns2. -/
def Payload.AlertTitle (p : Payload) (t : String) : Payload :=
  { p with alertTitle := t }

/-- Payload.AlertBody of apns2. -/
def Payload.AlertBody (p : Payload) (b : String) : Payload :=
  { p with alertBody := b }

/-- Payload.Custom of apns2: sets a custom key of the payload map. -/
def Payload.Custom (p : Payload) (k v : String) : Payload :=
  { p with custom := (k, v) :: p.custom }

/-- The apns2.Notification record as built by SendApplePush. -/
structure Notification where
  DeviceToken : String
  Topic : String
  Payload : Payload
deriving DecidableEq

/-- The messaging.Notification record of the Firebase admin SDK. -/
structure FCMNotification where
  Title : String
  Body : String
  ImageURL : String
deriving DecidableEq

/-- The messaging.Message record as built by SendFirebasePush: the nested
notification, the device token and the custom data map (an association
list; the code builds a one-entry map). -/
structure Message where
  Notification : Option FCMNotification
  Token : String
  Data : List (String × String)
deriving DecidableEq

/-- Opaque handle for a constructed `*messaging.Client` of the Firebase SDK. -/
abbrev FCMClientHandle := Nat

/-- Opaque handle for a constructed `*firebase.App`. -/
abbrev FirebaseApp := Nat

/-- One row of the `user_device` query, as scanned by SendUserPush.
`NullString` mirrors sql.NullString: `Valid` is false when the column was
NULL, and `Str` is its String field. -/
structure NullString where
  Valid : Bool
  Str : String
deriving DecidableEq

/-- A scanned device row: id, Android push token, iOS push token. -/
structure DeviceRow where
  id : String
  pushTokenAndroid : NullString
  pushTokenIos : NullString
deriving DecidableEq

/-- PushClient from src/push_client.go.  The two client fields are the
lazily initialised, cached vendor handles (`nil` is `none`).  The Go
struct also stores a background context; contexts carry no data this
embedding observes, so they are omitted. -/
structure PushClient where
  apnsClient : Option Client
  apnsCreds : APNSCredentials
  fcmClient : Option FCMClientHandle
  fcmCreds : FCMCredentials
deriving DecidableEq

/-- NewPushClient from src/push_client.go: both cached handles start nil. -/
def NewPushClient (apnsCreds : APNSCredentials) (fcmCreds : FCMCredentials) : PushClient :=
  { apnsClient := none, apnsCreds := apnsCreds, fcmClient := none, fcmCreds := fcmCreds }

/-- NewPushClientFromEnv from src/push_client.go. -/
def NewPushClientFromEnv (props : List (String × String)) : PushClient :=
  NewPushClient (NewAPNSCredentialsFromEnv props) (NewFCMCredentialsFromEnv props)

/-- Trace events: the vendor-SDK calls and log lines an operation performs.
`apnsConstructed` / `fcmConstructed` record a successful lazy client
construction; `applePushed` / `firebasePushed` record a submission to the
vendor push endpoint together with the client handle used; `debugLogged`
records a logger.Debug line. -/
inductive Event where
  | apnsConstructed (cl : Client)
  | fcmConstructed (cl : FCMClientHandle)
  | applePushed (cl : Client) (n : Notification)
  | firebasePushed (cl : FCMClientHandle) (m : Message)
  | debugLogged (msg : String)
deriving DecidableEq

/-- Result of one adapter operation: the PushClient state after it, the
trace of external calls it made, and its Go return value. -/
structure PCResult (α : Type) where
  state : PushClient
  trace : List Event
  result : Except GoError α

/-- The external world: every collaborator outside this repository is an
oracle.  `authKeyFromFile` is token.AuthKeyFromFile; `firebaseNewApp` is
firebase.NewApp applied to the project id and the credentials file path;
`appMessaging` is App.Messaging; `apnsPush` is Client.PushWithContext;
`fcmSend` is messaging.Client.Send (returning the message id string);
`queryUserDevice` is the db.QueryContext of the user_device query, giving
the scanned rows (each row is the outcome of rows.Scan).  Per the
database/sql documentation, a query that matches no rows yields `.ok []`
with a nil error; sql.ErrNoRows is produced only by QueryRow.Scan, never
by QueryContext, though the constructor exists because the code tests
for it. -/
structure World where
  authKeyFromFile : String → Except GoError String
  firebaseNewApp : String → String → Except GoError FirebaseApp
  appMessaging : FirebaseApp → Except GoError FCMClientHandle
  apnsPush : Client → Notification → Except GoError Response
  fcmSend : FCMClientHandle → Message → Except GoError String
  queryUserDevice : String → Except GoError (List (Except GoError DeviceRow))

/-- getAPNSClient from src/push_client.go: return the cached client, or
construct it from the credentials — load the P8 auth key, build the token,
build a token client, select production, then development when the
environment string is "development" — and cache it.  A construction
failure is returned as-is and leaves the cache empty. -/
def getAPNSClient (w : World) (c : PushClient) : PCResult Client :=
  match c.apnsClient with
  | some cl => ⟨c, [], .ok cl⟩
  | none =>
    match w.authKeyFromFile c.apnsCreds.P8AuthKeyFilePath with
    | .error e => ⟨c, [], .error e⟩
    | .ok authKey =>
      let tok : Token :=
        { AuthKey := authKey, KeyID := c.apnsCreds.P8AuthKeyID, TeamID := c.apnsCreds.TeamID }
      let base := (NewTokenClient tok).Production
      let apnsClient :=
        if c.apnsCreds.Environment == "development" then base.Development else base
      ⟨{ c with apnsClient := some apnsClient }, [.apnsConstructed apnsClient], .ok apnsClient⟩

/-- getFCMClient from src/push_client.go: return the cached client, or
construct the firebase app from the credentials file and project id, get
its messaging client, and cache it.  Either construction failure is
returned as-is and leaves the cache empty. -/
def getFCMClient (w : World) (c : PushClient) : PCResult FCMClientHandle :=
  match c.fcmClient with
  | some cl => ⟨c, [], .ok cl⟩
  | none =>
    match w.firebaseNewApp c.fcmCreds.ProjectID c.fcmCreds.CredentialsFilePath with
    | .error e => ⟨c, [], .error e⟩
    | .ok app =>
      match w.appMessaging app with
      | .error e => ⟨c, [], .error e⟩
      | .ok fcmClient =>
        ⟨{ c with fcmClient := some fcmClient }, [.fcmConstructed fcmClient], .ok fcmClient⟩

/-- The apns2.Notification that SendApplePush builds before sending (lines
183-189 of src/push_client.go): title and body as the alert, image URL and
external id as custom payload keys, the credential topic and the device
token. -/
def appleNotification (c : PushClient) (deviceToken title body imageURL externalID : String) :
    Notification :=
  let contents :=
    (((Payload.NewPayload.AlertTitle title).AlertBody body).Custom "image_url" imageURL).Custom
      "external_id" externalID
  { DeviceToken := deviceToken, Topic := c.apnsCreds.Topic, Payload := contents }

/-- SendApplePush from src/push_client.go: build the notification, lazily
obtain the APNs client, submit; a request error from the push call is
wrapped in PushNotificationDeliveryFailed, and so is a response that was
not sent (wrapping errors.New of the response reason). -/
def SendApplePush (w : World) (c : PushClient) (deviceToken title body imageURL externalID : String) :
    PCResult Unit :=
  let notification := appleNotification c deviceToken title body imageURL externalID
  match getAPNSClient w c with
  | ⟨c', evs, .error e⟩ => ⟨c', evs, .error e⟩
  | ⟨c', evs, .ok apnsClient⟩ =>
    match w.apnsPush apnsClient notification with
    | .error e =>
      ⟨c', evs ++ [.applePushed apnsClient notification], .error (.deliveryFailed e)⟩
    | .ok response =>
      if !response.Sent then
        ⟨c', evs ++ [.applePushed apnsClient notification],
          .error (.deliveryFailed (.simple response.Reason))⟩
      else
        ⟨c', evs ++ [.applePushed apnsClient notification], .ok ()⟩

/-- The messaging.Message that SendFirebasePush builds (lines 206-216 of
src/push_client.go): title, body and image URL in the notification object,
the device token, and the external id as the single data entry. -/
def firebaseMessage (deviceToken title body imageURL externalID : String) : Message :=
  { Notification := some { Title := title, Body := body, ImageURL := imageURL }
    Token := deviceToken
    Data := [("external_id", externalID)] }

/-- SendFirebasePush from src/push_client.go: build the message, lazily
obtain the FCM client, send; any send failure is wrapped in
PushNotificationDeliveryFailed. -/
def SendFirebasePush (w : World) (c : PushClient) (deviceToken title body imageURL externalID : String) :
    PCResult Unit :=
  let contents := firebaseMessage deviceToken title body imageURL externalID
  match getFCMClient w c with
  | ⟨c', evs, .error e⟩ => ⟨c', evs, .error e⟩
  | ⟨c', evs, .ok fcmClient⟩ =>
    match w.fcmSend fcmClient contents with
    | .error e => ⟨c', evs ++ [.firebasePushed fcmClient contents], .error (.deliveryFailed e)⟩
    | .ok _ => ⟨c', evs ++ [.firebasePushed fcmClient contents], .ok ()⟩

/-- The per-row body of the SendUserPush loop plus the recursion over the
remaining rows (lines 159-179 of src/push_client.go): a Scan failure is
returned; a valid non-empty Android token sends a Firebase push; then a
valid non-empty iOS token sends an Apple push; the first send error is
returned and aborts the remaining rows. -/
def sendUserPushRows (w : World) (c : PushClient) (rows : List (Except GoError DeviceRow))
    (title body imageURL externalID : String) : PCResult Unit :=
  match rows with
  | [] => ⟨c, [], .ok ()⟩
  | .error e :: _ => ⟨c, [], .error e⟩
  | .ok row :: rest =>
    let afterAndroid : PCResult Unit :=
      if row.pushTokenAndroid.Valid && row.pushTokenAndroid.Str != "" then
        SendFirebasePush w c row.pushTokenAndroid.Str title body imageURL externalID
      else ⟨c, [], .ok ()⟩
    match afterAndroid with
    | ⟨c1, evs1, .error e⟩ => ⟨c1, evs1, .error e⟩
    | ⟨c1, evs1, .ok _⟩ =>
      let afterIos : PCResult Unit :=
        if row.pushTokenIos.Valid && row.pushTokenIos.Str != "" then
          SendApplePush w c1 row.pushTokenIos.Str title body imageURL externalID
        else ⟨c1, [], .ok ()⟩
      match afterIos with
      | ⟨c2, evs2, .error e⟩ => ⟨c2, evs1 ++ evs2, .error e⟩
      | ⟨c2, evs2, .ok _⟩ =>
        match sendUserPushRows w c2 rest title body imageURL externalID with
        | ⟨c3, evs3, r⟩ => ⟨c3, evs1 ++ evs2 ++ evs3, r⟩

/-- SendUserPush from src/push_client.go: query the device rows of the
user; when the query error is sql.ErrNoRows return a "user not found"
error, any other query error as-is; then fan out over the rows. -/
def SendUserPush (w : World) (c : PushClient) (userID title body imageURL externalID : String) :
    PCResult Unit :=
  match w.queryUserDevice userID with
  | .error GoError.sqlErrNoRows => ⟨c, [], .error (.simple "user not found")⟩
  | .error err => ⟨c, [], .error err⟩
  | .ok rows => sendUserPushRows w c rows title body imageURL externalID

/-- NotificationRequest from the RPC handler file. -/
structure NotificationRequest where
  UserID : String
  DeviceToken : String
  Title : String
  Body : String
  ImageURL : String
  ExternalID : String
  IsIOS : Bool
deriving DecidableEq

/-- The fixed success literal of the RPC handler. -/
def responseJSON : String := "\x7b\"message\": \"Push notification sent successfully\"\x7d"

/-- RpcSendNotification from the handler file.  `parse` is the
encoding/json oracle: json.Unmarshal of the payload into a
NotificationRequest, with the parse error as a message string.  On a parse
failure the handler logs the error at debug level and returns
hiro.ErrBadInput; otherwise it dispatches on IsIOS, sending Firebase when
false and Apple when true, propagating a send error unchanged and
returning the fixed success literal on success. -/
def RpcSendNotification (parse : String → Except String NotificationRequest) (w : World)
    (c : PushClient) (payload : String) : PCResult String :=
  match parse payload with
  | .error e =>
    ⟨c, [.debugLogged ("json.Unmarshal error: " ++ e)], .error .badInput⟩
  | .ok req =>
    if !req.IsIOS then
      match SendFirebasePush w c req.DeviceToken req.Title req.Body req.ImageURL req.ExternalID with
      | ⟨c', evs, .error err⟩ => ⟨c', evs, .error err⟩
      | ⟨c', evs, .ok _⟩ => ⟨c', evs, .ok responseJSON⟩
    else
      match SendApplePush w c req.DeviceToken req.Title req.Body req.ImageURL req.ExternalID with
      | ⟨c', evs, .error err⟩ => ⟨c', evs, .error err⟩
      | ⟨c', evs, .ok _⟩ => ⟨c', evs, .ok responseJSON⟩

/-! Derived helpers used by the statements below. -/

/-- True of the trace events that are calls into a vendor SDK (client
construction or push submission), false of log lines. -/
def Event.isProviderCall : Event → Bool
  | .apnsConstructed _ => true
  | .fcmConstructed _ => true
  | .applePushed _ _ => true
  | .firebasePushed _ _ => true
  | .debugLogged _ => false

/-- Lift the result of a provider send to the RPC handler result: state and
trace unchanged, success replaced by the fixed success literal. -/
def toRpcResult (r : PCResult Unit) : PCResult String :=
  ⟨r.state, r.trace, r.result.map fun _ => responseJSON⟩

/-! Concrete fixtures used by witnesses and counterexamples. -/

/-- Concrete APNs credentials for witnesses. -/
def wAPNSCreds : APNSCredentials :=
  { Environment := "production", TeamID := "team1", Topic := "com.example.app"
    P8AuthKeyID := "key1", P8AuthKeyFilePath := "/keys/auth.p8" }

/-- Concrete FCM credentials for witnesses. -/
def wFCMCreds : FCMCredentials :=
  { ProjectID := "proj1", CredentialsFilePath := "/keys/fcm.json" }

/-- A fresh push client (both caches nil) over the concrete credentials. -/
def wClient : PushClient := NewPushClient wAPNSCreds wFCMCreds

/-- A well-behaved concrete world: every construction succeeds, every push
is delivered, the device-token store has no rows for any user. -/
def wWorld : World :=
  { authKeyFromFile := fun _ => .ok "p8key"
    firebaseNewApp := fun _ _ => .ok 7
    appMessaging := fun _ => .ok 42
    apnsPush := fun _ _ => .ok { StatusCode := 200, Reason := "" }
    fcmSend := fun _ _ => .ok "msg-id-1"
    queryUserDevice := fun _ => .ok [] }

/-- A concrete parsed request with the iOS flag set. -/
def wRequest : NotificationRequest :=
  { UserID := "u1", DeviceToken := "tok-ios", Title := "Hi", Body := "there"
    ImageURL := "", ExternalID := "x1", IsIOS := true }

/-- C1: for every payload the JSON oracle parses successfully, the handler
dispatches on the IsIOS flag — Firebase when false, Apple when true — passing
exactly the device token, title, body, image URL and external id of the
request, returning the send result mapped to the fixed success literal on
success and the send error unchanged on failure. -/
theorem rpc_dispatches_on_platform_flag (parse : String → Except String NotificationRequest)
    (w : World) (c : PushClient) (payload : String) (req : NotificationRequest)
    (h : parse payload = .ok req) :
    (req.IsIOS = false →
      RpcSendNotification parse w c payload =
        toRpcResult
          (SendFirebasePush w c req.DeviceToken req.Title req.Body req.ImageURL req.ExternalID)) ∧
    (req.IsIOS = true →
      RpcSendNotification parse w c payload =
        toRpcResult
          (SendApplePush w c req.DeviceToken req.Title req.Body req.ImageURL req.ExternalID)) := by
  constructor
  · intro hios
    rcases hr : SendFirebasePush w c req.DeviceToken req.Title req.Body req.ImageURL req.ExternalID
      with ⟨c', evs, res⟩
    cases res <;> simp [RpcSendNotification, h, hios, hr, toRpcResult, Except.map]
  · intro hios
    rcases hr : SendApplePush w c req.DeviceToken req.Title req.Body req.ImageURL req.ExternalID
      with ⟨c', evs, res⟩
    cases res <;> simp [RpcSendNotification, h, hios, hr, toRpcResult, Except.map]

/-- Witness for C1: the handler on the concrete iOS request equals the
mapped Apple send. -/
theorem rpc_dispatches_on_platform_flag_witness :
    RpcSendNotification (fun _ => .ok wRequest) wWorld wClient "payload" =
      toRpcResult (SendApplePush wWorld wClient "tok-ios" "Hi" "there" "" "x1") :=
  (rpc_dispatches_on_platform_flag (fun _ => .ok wRequest) wWorld wClient "payload" wRequest
    rfl).2 rfl

/-- C4: for every payload the JSON oracle rejects, the handler logs the
parse error at debug level, returns the generic bad-input sentinel (which
carries nothing of the parse error), and performs no vendor-SDK call. -/
theorem rpc_parse_failure_bad_input (parse : String → Except String NotificationRequest)
    (w : World) (c : PushClient) (payload e : String)
    (h : parse payload = .error e) :
    RpcSendNotification parse w c payload =
      ⟨c, [.debugLogged ("json.Unmarshal error: " ++ e)], .error .badInput⟩ ∧
    ∀ ev ∈ (RpcSendNotification parse w c payload).trace, ev.isProviderCall = false := by
  refine ⟨by simp [RpcSendNotification, h], ?_⟩
  simp [RpcSendNotification, h, Event.isProviderCall]

/-- Witness for C4: a concrete unparseable payload yields the bad-input
sentinel and only the debug log line. -/
theorem rpc_parse_failure_bad_input_witness :
    RpcSendNotification (fun _ => .error "unexpected end of JSON input") wWorld wClient "\x7b" =
      ⟨wClient, [.debugLogged ("json.Unmarshal error: " ++ "unexpected end of JSON input")],
        .error .badInput⟩ :=
  (rpc_parse_failure_bad_input (fun _ => .error "unexpected end of JSON input") wWorld wClient
    "\x7b" "unexpected end of JSON input" rfl).1

/-- C2 as the code behaves: for a user whose device-token query matches no
row, db.QueryContext yields an empty row set with a nil error (sql.ErrNoRows
is a QueryRow sentinel that QueryContext never returns), so SendUserPush
returns success having called neither provider — not the "user not found"
error the claim requires.  The dead errors.Is branch in the source shows the
claim is the intent. -/
theorem sendUserPush_no_rows_is_silent_success :
    SendUserPush wWorld wClient "u1" "Hi" "there" "" "x1" = ⟨wClient, [], .ok ()⟩ ∧
    SendUserPush wWorld wClient "u1" "Hi" "there" "" "x1" ≠
      ⟨wClient, [], .error (.simple "user not found")⟩ := by
  refine ⟨rfl, fun hcontra => ?_⟩
  have h1 : SendUserPush wWorld wClient "u1" "Hi" "there" "" "x1" = ⟨wClient, [], .ok ()⟩ := rfl
  rw [h1] at hcontra
  exact Except.noConfusion (congrArg PCResult.result hcontra)

/-- The APNs client that getAPNSClient constructs from the concrete
credentials in `wWorld` (production environment). -/
def wAPNSClientProd : Client :=
  { Token := { AuthKey := "p8key", KeyID := "key1", TeamID := "team1" }, Host := HostProduction }

/-- A world whose APNs push call fails at the transport/request level. -/
def wTransportWorld : World :=
  { wWorld with apnsPush := fun _ _ => .error (.simple "connection refused") }

/-- A world in which both lazy client constructions fail. -/
def wFailWorld : World :=
  { wWorld with
    authKeyFromFile := fun _ => .error (.simple "open /keys/auth.p8: no such file")
    firebaseNewApp := fun _ _ => .error (.simple "invalid credentials") }

/-- Counterexample to C3 as stated: on a concrete transport error from the
vendor push call, SendApplePush does not return the error as-is — it wraps
it in PushNotificationDeliveryFailed, just as it wraps a provider-reported
non-delivery, so the two failure shapes share one error kind. -/
theorem apple_transport_error_wrapped_counterexample :
    (SendApplePush wTransportWorld wClient "tok" "t" "b" "u" "x").result =
      .error (.deliveryFailed (.simple "connection refused")) ∧
    (SendApplePush wTransportWorld wClient "tok" "t" "b" "u" "x").result ≠
      .error (.simple "connection refused") := by
  refine ⟨rfl, fun hcontra => ?_⟩
  have h1 : (SendApplePush wTransportWorld wClient "tok" "t" "b" "u" "x").result =
      .error (.deliveryFailed (.simple "connection refused")) := rfl
  rw [h1] at hcontra
  exact GoError.noConfusion (Except.error.inj hcontra)

/-- C3 amended: once the APNs client is obtained, both failure shapes of the
vendor call are wrapped in PushNotificationDeliveryFailed — a
transport/request error wrapping the underlying error, and a
provider-reported non-delivery wrapping an error carrying the rejection
reason of the response. -/
theorem apple_send_failures_both_wrapped (w : World) (c : PushClient)
    (deviceToken title body imageURL externalID : String) (cl : Client)
    (hcl : (getAPNSClient w c).result = .ok cl) :
    (∀ e,
      w.apnsPush cl (appleNotification c deviceToken title body imageURL externalID) = .error e →
      (SendApplePush w c deviceToken title body imageURL externalID).result =
        .error (.deliveryFailed e)) ∧
    (∀ resp,
      w.apnsPush cl (appleNotification c deviceToken title body imageURL externalID) = .ok resp →
      resp.Sent = false →
      (SendApplePush w c deviceToken title body imageURL externalID).result =
        .error (.deliveryFailed (.simple resp.Reason))) := by
  rcases hg : getAPNSClient w c with ⟨c', evs, res⟩
  rw [hg] at hcl
  simp only at hcl
  subst hcl
  constructor
  · intro e he
    simp [SendApplePush, hg, he]
  · intro resp hr hsent
    simp [SendApplePush, hg, hr, hsent]

/-- Witness for the amended C3: on the concrete transport-failure world the
Apple send returns the wrapped transport error. -/
theorem apple_send_failures_both_wrapped_witness :
    (SendApplePush wTransportWorld wClient "tok2" "t" "b" "u" "x").result =
      .error (.deliveryFailed (.simple "connection refused")) :=
  (apple_send_failures_both_wrapped wTransportWorld wClient "tok2" "t" "b" "u" "x"
    wAPNSClientProd rfl).1 (.simple "connection refused") rfl

/-- C7: the two credential loaders are total functions built from direct key
lookups with no validation — each field is exactly the map lookup of its
key, and a key missing from the map yields the empty string (never an
error; the functions have no error result by type). -/
theorem creds_from_env_lookup (env : List (String × String)) :
    ((NewAPNSCredentialsFromEnv env).Environment = envGet env "APNS_ENVIRONMENT" ∧
     (NewAPNSCredentialsFromEnv env).TeamID = envGet env "APNS_TEAM_ID" ∧
     (NewAPNSCredentialsFromEnv env).Topic = envGet env "APNS_TOPIC" ∧
     (NewAPNSCredentialsFromEnv env).P8AuthKeyID = envGet env "APNS_P8_AUTH_KEY_ID" ∧
     (NewAPNSCredentialsFromEnv env).P8AuthKeyFilePath =
       envGet env "APNS_P8_AUTH_KEY_FILE_PATH") ∧
    ((NewFCMCredentialsFromEnv env).ProjectID = envGet env "FCM_PROJECT_ID" ∧
     (NewFCMCredentialsFromEnv env).CredentialsFilePath =
       envGet env "FCM_CREDENTIALS_FILE_PATH") ∧
    (∀ k, env.lookup k = none → envGet env k = "") := by
  refine ⟨⟨rfl, rfl, rfl, rfl, rfl⟩, ⟨rfl, rfl⟩, fun k hk => ?_⟩
  simp [envGet, hk]

/-- Witness for C7: on the empty map every field is the empty string. -/
theorem creds_from_env_lookup_witness :
    (NewAPNSCredentialsFromEnv []).TeamID = envGet [] "APNS_TEAM_ID" ∧
    envGet [] "APNS_TEAM_ID" = "" :=
  ⟨(creds_from_env_lookup []).1.2.1, (creds_from_env_lookup []).2.2 "APNS_TEAM_ID" rfl⟩

/-- Shape of the getAPNSClient trace: empty, or one construction event. -/
theorem getAPNSClient_trace_shape (w : World) (c : PushClient) :
    (getAPNSClient w c).trace = [] ∨
    ∃ cl, (getAPNSClient w c).trace = [Event.apnsConstructed cl] := by
  rcases hc : c.apnsClient with _ | cl
  · rcases h : w.authKeyFromFile c.apnsCreds.P8AuthKeyFilePath with e | k <;>
      simp [getAPNSClient, hc, h]
  · simp [getAPNSClient, hc]

/-- Shape of the getFCMClient trace: empty, or one construction event. -/
theorem getFCMClient_trace_shape (w : World) (c : PushClient) :
    (getFCMClient w c).trace = [] ∨
    ∃ cl, (getFCMClient w c).trace = [Event.fcmConstructed cl] := by
  rcases hc : c.fcmClient with _ | cl
  · rcases h : w.firebaseNewApp c.fcmCreds.ProjectID c.fcmCreds.CredentialsFilePath with e | app
    · simp [getFCMClient, hc, h]
    · rcases h2 : w.appMessaging app with e | cl <;> simp [getFCMClient, hc, h, h2]
  · simp [getFCMClient, hc]

/-- A SendApplePush trace is the getAPNSClient trace, followed — when the
client was obtained — by the one applePushed event carrying the built
notification. -/
theorem sendApplePush_trace_chars (w : World) (c : PushClient)
    (deviceToken title body imageURL externalID : String) :
    ((SendApplePush w c deviceToken title body imageURL externalID).trace =
        (getAPNSClient w c).trace ∧
      (SendApplePush w c deviceToken title body imageURL externalID).state =
        (getAPNSClient w c).state) ∨
    ∃ acl, (getAPNSClient w c).result = Except.ok acl ∧
      (SendApplePush w c deviceToken title body imageURL externalID).trace =
        (getAPNSClient w c).trace ++
          [Event.applePushed acl (appleNotification c deviceToken title body imageURL externalID)] ∧
      (SendApplePush w c deviceToken title body imageURL externalID).state =
        (getAPNSClient w c).state := by
  rcases hg : getAPNSClient w c with ⟨c', evs, res⟩
  cases res with
  | error e => left; simp [SendApplePush, hg]
  | ok acl =>
    right
    refine ⟨acl, rfl, ?_⟩
    rcases hp : w.apnsPush acl (appleNotification c deviceToken title body imageURL externalID)
      with e | resp
    · simp [SendApplePush, hg, hp]
    · by_cases hs : resp.Sent <;> simp [SendApplePush, hg, hp, hs]

/-- A SendFirebasePush trace is the getFCMClient trace, followed — when the
client was obtained — by the one firebasePushed event carrying the built
message. -/
theorem sendFirebasePush_trace_chars (w : World) (c : PushClient)
    (deviceToken title body imageURL externalID : String) :
    ((SendFirebasePush w c deviceToken title body imageURL externalID).trace =
        (getFCMClient w c).trace ∧
      (SendFirebasePush w c deviceToken title body imageURL externalID).state =
        (getFCMClient w c).state) ∨
    ∃ fcl, (getFCMClient w c).result = Except.ok fcl ∧
      (SendFirebasePush w c deviceToken title body imageURL externalID).trace =
        (getFCMClient w c).trace ++
          [Event.firebasePushed fcl (firebaseMessage deviceToken title body imageURL externalID)] ∧
      (SendFirebasePush w c deviceToken title body imageURL externalID).state =
        (getFCMClient w c).state := by
  rcases hg : getFCMClient w c with ⟨c', evs, res⟩
  cases res with
  | error e => left; simp [SendFirebasePush, hg]
  | ok fcl =>
    right
    refine ⟨fcl, rfl, ?_⟩
    rcases hp : w.fcmSend fcl (firebaseMessage deviceToken title body imageURL externalID)
      with e | msgid
    · simp [SendFirebasePush, hg, hp]
    · simp [SendFirebasePush, hg, hp]

/-- Every applePushed event of a SendApplePush trace carries the
notification the source builds at lines 183-189. -/
theorem sendApplePush_event_notification (w : World) (c : PushClient)
    (deviceToken title body imageURL externalID : String) (cl : Client) (n : Notification)
    (hmem : Event.applePushed cl n ∈
      (SendApplePush w c deviceToken title body imageURL externalID).trace) :
    n = appleNotification c deviceToken title body imageURL externalID := by
  have hg := getAPNSClient_trace_shape w c
  rcases sendApplePush_trace_chars w c deviceToken title body imageURL externalID with
    ⟨h, -⟩ | ⟨acl, -, h, -⟩
  · rw [h] at hmem
    rcases hg with h0 | ⟨cl0, h0⟩ <;> rw [h0] at hmem <;> simp at hmem
  · rw [h, List.mem_append] at hmem
    rcases hmem with hmem | hmem
    · rcases hg with h0 | ⟨cl0, h0⟩ <;> rw [h0] at hmem <;> simp at hmem
    · simp at hmem
      exact hmem.2

/-- Every firebasePushed event of a SendFirebasePush trace carries the
message the source builds at lines 206-216. -/
theorem sendFirebasePush_event_message (w : World) (c : PushClient)
    (deviceToken title body imageURL externalID : String) (cl : FCMClientHandle) (m : Message)
    (hmem : Event.firebasePushed cl m ∈
      (SendFirebasePush w c deviceToken title body imageURL externalID).trace) :
    m = firebaseMessage deviceToken title body imageURL externalID := by
  have hg := getFCMClient_trace_shape w c
  rcases sendFirebasePush_trace_chars w c deviceToken title body imageURL externalID with
    ⟨h, -⟩ | ⟨fcl, -, h, -⟩
  · rw [h] at hmem
    rcases hg with h0 | ⟨cl0, h0⟩ <;> rw [h0] at hmem <;> simp at hmem
  · rw [h, List.mem_append] at hmem
    rcases hmem with hmem | hmem
    · rcases hg with h0 | ⟨cl0, h0⟩ <;> rw [h0] at hmem <;> simp at hmem
    · simp at hmem
      exact hmem.2

/-- C9: every notification SendApplePush submits carries title and body as
the alert, image URL and external id under the custom keys image_url and
external_id, the credential topic and the given device token; every
message SendFirebasePush submits carries title, body and image URL in the
notification object, the given device token, and the external id as the
sole data entry. -/
theorem send_builds_vendor_payloads (w : World) (c : PushClient)
    (deviceToken title body imageURL externalID : String) :
    (∀ cl n,
      Event.applePushed cl n ∈
          (SendApplePush w c deviceToken title body imageURL externalID).trace →
        n.DeviceToken = deviceToken ∧ n.Topic = c.apnsCreds.Topic ∧
        n.Payload.alertTitle = title ∧ n.Payload.alertBody = body ∧
        n.Payload.custom.lookup "image_url" = some imageURL ∧
        n.Payload.custom.lookup "external_id" = some externalID) ∧
    (∀ cl m,
      Event.firebasePushed cl m ∈
          (SendFirebasePush w c deviceToken title body imageURL externalID).trace →
        m.Token = deviceToken ∧
        m.Notification = some { Title := title, Body := body, ImageURL := imageURL } ∧
        m.Data = [("external_id", externalID)]) := by
  constructor
  · intro cl n hmem
    have h := sendApplePush_event_notification w c deviceToken title body imageURL externalID
      cl n hmem
    subst h
    exact ⟨rfl, rfl, rfl, rfl, rfl, rfl⟩
  · intro cl m hmem
    have h := sendFirebasePush_event_message w c deviceToken title body imageURL externalID
      cl m hmem
    subst h
    exact ⟨rfl, rfl, rfl⟩

/-- Witness for C9: the concrete Apple send submits the notification built
from exactly the given fields. -/
theorem send_builds_vendor_payloads_witness :
    (appleNotification wClient "tok-ios" "Hi" "there" "" "x1").DeviceToken = "tok-ios" ∧
    (appleNotification wClient "tok-ios" "Hi" "there" "" "x1").Topic = wClient.apnsCreds.Topic ∧
    (appleNotification wClient "tok-ios" "Hi" "there" "" "x1").Payload.alertTitle = "Hi" ∧
    (appleNotification wClient "tok-ios" "Hi" "there" "" "x1").Payload.alertBody = "there" ∧
    (appleNotification wClient "tok-ios" "Hi" "there" "" "x1").Payload.custom.lookup "image_url" =
      some "" ∧
    (appleNotification wClient "tok-ios" "Hi" "there" "" "x1").Payload.custom.lookup
      "external_id" = some "x1" :=
  (send_builds_vendor_payloads wWorld wClient "tok-ios" "Hi" "there" "" "x1").1 wAPNSClientProd
    (appleNotification wClient "tok-ios" "Hi" "there" "" "x1") (by decide)

/-- C10: a lazy construction failure is returned unchanged (never wrapped in
PushNotificationDeliveryFailed), nothing is submitted to the vendor, and
the whole client state — in particular the nil cache field — is unchanged,
so the next send attempts construction again. -/
theorem construction_failure_returned_unchanged (w : World) (c : PushClient)
    (deviceToken title body imageURL externalID : String) :
    (∀ e, c.apnsClient = none →
      w.authKeyFromFile c.apnsCreds.P8AuthKeyFilePath = .error e →
      SendApplePush w c deviceToken title body imageURL externalID = ⟨c, [], .error e⟩) ∧
    (∀ e, c.fcmClient = none →
      w.firebaseNewApp c.fcmCreds.ProjectID c.fcmCreds.CredentialsFilePath = .error e →
      SendFirebasePush w c deviceToken title body imageURL externalID = ⟨c, [], .error e⟩) ∧
    (∀ app e, c.fcmClient = none →
      w.firebaseNewApp c.fcmCreds.ProjectID c.fcmCreds.CredentialsFilePath = .ok app →
      w.appMessaging app = .error e →
      SendFirebasePush w c deviceToken title body imageURL externalID = ⟨c, [], .error e⟩) := by
  refine ⟨fun e h1 h2 => ?_, fun e h1 h2 => ?_, fun app e h1 h2 h3 => ?_⟩
  · simp [SendApplePush, getAPNSClient, h1, h2]
  · simp [SendFirebasePush, getFCMClient, h1, h2]
  · simp [SendFirebasePush, getFCMClient, h1, h2, h3]

/-- Witness for C10: on the failing world the Apple send surfaces the raw
file-open error and leaves the client untouched. -/
theorem construction_failure_returned_unchanged_witness :
    SendApplePush wFailWorld wClient "tok" "t" "b" "u" "x" =
      ⟨wClient, [], .error (.simple "open /keys/auth.p8: no such file")⟩ :=
  (construction_failure_returned_unchanged wFailWorld wClient "tok" "t" "b" "u" "x").1
    (.simple "open /keys/auth.p8: no such file") rfl rfl

/-- One externally visible send on a PushClient instance, as dispatched by
the request handler. -/
inductive Op where
  | apple (deviceToken title body imageURL externalID : String)
  | firebase (deviceToken title body imageURL externalID : String)

/-- Run one send on the client. -/
def runOp (w : World) (c : PushClient) : Op → PCResult Unit
  | .apple deviceToken title body imageURL externalID =>
    SendApplePush w c deviceToken title body imageURL externalID
  | .firebase deviceToken title body imageURL externalID =>
    SendFirebasePush w c deviceToken title body imageURL externalID

/-- Run a sequence of sends on one client instance, threading the cached
state (each send returns its own error; repeated sends on one instance are
exactly repeated handler calls). -/
def runOps (w : World) (c : PushClient) : List Op → PushClient × List Event
  | [] => (c, [])
  | op :: rest =>
    let r := runOp w c op
    let next := runOps w r.state rest
    (next.1, r.trace ++ next.2)

/-- The APNs client handles constructed in a trace, in order. -/
def apnsConstructions (tr : List Event) : List Client :=
  tr.filterMap fun ev =>
    match ev with
    | .apnsConstructed cl => some cl
    | _ => none

/-- The FCM client handles constructed in a trace, in order. -/
def fcmConstructions (tr : List Event) : List FCMClientHandle :=
  tr.filterMap fun ev =>
    match ev with
    | .fcmConstructed cl => some cl
    | _ => none

/-- Evolution contract of the APNs cache over a piece of execution from
state `c` to state `c2` with trace `tr`: a cached handle is kept, never
reconstructed, and used for every Apple push; from an empty cache either
the cache stays empty with no construction and no Apple push, or exactly
one handle is constructed, cached, and used for every Apple push. -/
def apnsStep (c c2 : PushClient) (tr : List Event) : Prop :=
  (∀ cl, c.apnsClient = some cl →
    c2.apnsClient = some cl ∧ apnsConstructions tr = [] ∧
      ∀ cl2 n, Event.applePushed cl2 n ∈ tr → cl2 = cl) ∧
  (c.apnsClient = none →
    (c2.apnsClient = none ∧ apnsConstructions tr = [] ∧
        ∀ cl2 n, Event.applePushed cl2 n ∉ tr) ∨
    ∃ cl0, c2.apnsClient = some cl0 ∧ apnsConstructions tr = [cl0] ∧
      ∀ cl2 n, Event.applePushed cl2 n ∈ tr → cl2 = cl0)

/-- Evolution contract of the FCM cache, mirror image of `apnsStep`. -/
def fcmStep (c c2 : PushClient) (tr : List Event) : Prop :=
  (∀ cl, c.fcmClient = some cl →
    c2.fcmClient = some cl ∧ fcmConstructions tr = [] ∧
      ∀ cl2 m, Event.firebasePushed cl2 m ∈ tr → cl2 = cl) ∧
  (c.fcmClient = none →
    (c2.fcmClient = none ∧ fcmConstructions tr = [] ∧
        ∀ cl2 m, Event.firebasePushed cl2 m ∉ tr) ∨
    ∃ cl0, c2.fcmClient = some cl0 ∧ fcmConstructions tr = [cl0] ∧
      ∀ cl2 m, Event.firebasePushed cl2 m ∈ tr → cl2 = cl0)

/-- Case analysis of getAPNSClient, read off its definition: a cached
handle is returned with no state change and no event; otherwise the key
load either fails (error as-is, no state change, no event) or the client
is built, cached and returned with one construction event. -/
theorem getAPNSClient_chars (w : World) (c : PushClient) :
    (∀ cl, c.apnsClient = some cl → getAPNSClient w c = ⟨c, [], .ok cl⟩) ∧
    (c.apnsClient = none →
      (∃ e, w.authKeyFromFile c.apnsCreds.P8AuthKeyFilePath = .error e ∧
        getAPNSClient w c = ⟨c, [], .error e⟩) ∨
      (∃ cl, getAPNSClient w c =
        ⟨{ c with apnsClient := some cl }, [Event.apnsConstructed cl], .ok cl⟩)) := by
  constructor
  · intro cl hc
    simp [getAPNSClient, hc]
  · intro hc
    rcases hk : w.authKeyFromFile c.apnsCreds.P8AuthKeyFilePath with e | k
    · exact Or.inl ⟨e, rfl, by simp [getAPNSClient, hc, hk]⟩
    · exact Or.inr ⟨if c.apnsCreds.Environment == "development" then
          ((NewTokenClient
            { AuthKey := k, KeyID := c.apnsCreds.P8AuthKeyID,
              TeamID := c.apnsCreds.TeamID }).Production).Development
        else
          (NewTokenClient
            { AuthKey := k, KeyID := c.apnsCreds.P8AuthKeyID,
              TeamID := c.apnsCreds.TeamID }).Production,
        by simp [getAPNSClient, hc, hk]⟩

/-- Case analysis of getFCMClient, read off its definition. -/
theorem getFCMClient_chars (w : World) (c : PushClient) :
    (∀ cl, c.fcmClient = some cl → getFCMClient w c = ⟨c, [], .ok cl⟩) ∧
    (c.fcmClient = none →
      (∃ e, getFCMClient w c = ⟨c, [], .error e⟩) ∨
      (∃ cl, getFCMClient w c =
        ⟨{ c with fcmClient := some cl }, [Event.fcmConstructed cl], .ok cl⟩)) := by
  constructor
  · intro cl hc
    simp [getFCMClient, hc]
  · intro hc
    rcases ha : w.firebaseNewApp c.fcmCreds.ProjectID c.fcmCreds.CredentialsFilePath with e | app
    · exact Or.inl ⟨e, by simp [getFCMClient, hc, ha]⟩
    · rcases hm : w.appMessaging app with e | cl
      · exact Or.inl ⟨e, by simp [getFCMClient, hc, ha, hm]⟩
      · exact Or.inr ⟨cl, by simp [getFCMClient, hc, ha, hm]⟩

/-- SendApplePush satisfies the APNs cache contract. -/
theorem sendApplePush_apnsStep (w : World) (c : PushClient)
    (deviceToken title body imageURL externalID : String) :
    apnsStep c (SendApplePush w c deviceToken title body imageURL externalID).state
      (SendApplePush w c deviceToken title body imageURL externalID).trace := by
  have hchars := getAPNSClient_chars w c
  rcases sendApplePush_trace_chars w c deviceToken title body imageURL externalID with
    ⟨htr, hst⟩ | ⟨acl, hres, htr, hst⟩
  · constructor
    · intro cl hc
      have hg := hchars.1 cl hc
      rw [htr, hst, hg]
      exact ⟨hc, rfl, by simp⟩
    · intro hc
      rcases hchars.2 hc with ⟨e, -, hg⟩ | ⟨cl, hg⟩
      · left
        rw [htr, hst, hg]
        exact ⟨hc, rfl, by simp⟩
      · right
        refine ⟨cl, ?_⟩
        rw [htr, hst, hg]
        exact ⟨rfl, rfl, by simp⟩
  · constructor
    · intro cl hc
      have hg := hchars.1 cl hc
      rw [htr, hst, hg]
      rw [hg] at hres
      simp only at hres
      have hacl : acl = cl := by
        injection hres with h
        exact h.symm
      subst hacl
      refine ⟨hc, by simp [apnsConstructions], ?_⟩
      intro cl2 n hmem
      simp at hmem
      exact hmem.1
    · intro hc
      rcases hchars.2 hc with ⟨e, -, hg⟩ | ⟨cl, hg⟩
      · rw [hg] at hres
        exact absurd hres (by simp)
      · right
        rw [htr, hst, hg]
        rw [hg] at hres
        simp only at hres
        have hacl : acl = cl := by
          injection hres with h
          exact h.symm
        subst hacl
        refine ⟨acl, rfl, by simp [apnsConstructions], ?_⟩
        intro cl2 n hmem
        simp at hmem
        exact hmem.1

/-- SendApplePush touches neither the FCM cache nor any FCM event. -/
theorem sendApplePush_fcmStep (w : World) (c : PushClient)
    (deviceToken title body imageURL externalID : String) :
    fcmStep c (SendApplePush w c deviceToken title body imageURL externalID).state
      (SendApplePush w c deviceToken title body imageURL externalID).trace := by
  have hchars := getAPNSClient_chars w c
  have hfcm : (SendApplePush w c deviceToken title body imageURL externalID).state.fcmClient =
      c.fcmClient ∧
      fcmConstructions (SendApplePush w c deviceToken title body imageURL externalID).trace =
        [] ∧
      ∀ cl2 m, Event.firebasePushed cl2 m ∉
        (SendApplePush w c deviceToken title body imageURL externalID).trace := by
    rcases sendApplePush_trace_chars w c deviceToken title body imageURL externalID with
      ⟨htr, hst⟩ | ⟨acl, hres, htr, hst⟩ <;>
      rcases hc : c.apnsClient with _ | cl0
    · rcases hchars.2 hc with ⟨e, -, hg⟩ | ⟨cl, hg⟩ <;> rw [htr, hst, hg] <;>
        exact ⟨rfl, rfl, by simp⟩
    · rw [htr, hst, hchars.1 cl0 hc]
      exact ⟨rfl, rfl, by simp⟩
    · rcases hchars.2 hc with ⟨e, -, hg⟩ | ⟨cl, hg⟩
      · rw [hg] at hres
        exact absurd hres (by simp)
      · rw [htr, hst, hg]
        exact ⟨rfl, by simp [fcmConstructions], by simp⟩
    · rw [htr, hst, hchars.1 cl0 hc]
      exact ⟨rfl, by simp [fcmConstructions], by simp⟩
  obtain ⟨hst, hcon, hnomem⟩ := hfcm
  constructor
  · intro cl hc
    rw [hst]
    exact ⟨hc, hcon, fun cl2 m hmem => absurd hmem (hnomem cl2 m)⟩
  · intro hc
    left
    rw [hst]
    exact ⟨hc, hcon, hnomem⟩

/-- SendFirebasePush satisfies the FCM cache contract. -/
theorem sendFirebasePush_fcmStep (w : World) (c : PushClient)
    (deviceToken title body imageURL externalID : String) :
    fcmStep c (SendFirebasePush w c deviceToken title body imageURL externalID).state
      (SendFirebasePush w c deviceToken title body imageURL externalID).trace := by
  have hchars := getFCMClient_chars w c
  rcases sendFirebasePush_trace_chars w c deviceToken title body imageURL externalID with
    ⟨htr, hst⟩ | ⟨fcl, hres, htr, hst⟩
  · constructor
    · intro cl hc
      have hg := hchars.1 cl hc
      rw [htr, hst, hg]
      exact ⟨hc, rfl, by simp⟩
    · intro hc
      rcases hchars.2 hc with ⟨e, hg⟩ | ⟨cl, hg⟩
      · left
        rw [htr, hst, hg]
        exact ⟨hc, rfl, by simp⟩
      · right
        refine ⟨cl, ?_⟩
        rw [htr, hst, hg]
        exact ⟨rfl, rfl, by simp⟩
  · constructor
    · intro cl hc
      have hg := hchars.1 cl hc
      rw [htr, hst, hg]
      rw [hg] at hres
      simp only at hres
      have hfcl : fcl = cl := by
        injection hres with h
        exact h.symm
      subst hfcl
      refine ⟨hc, by simp [fcmConstructions], ?_⟩
      intro cl2 m hmem
      simp at hmem
      exact hmem.1
    · intro hc
      rcases hchars.2 hc with ⟨e, hg⟩ | ⟨cl, hg⟩
      · rw [hg] at hres
        exact absurd hres (by simp)
      · right
        rw [htr, hst, hg]
        rw [hg] at hres
        simp only at hres
        have hfcl : fcl = cl := by
          injection hres with h
          exact h.symm
        subst hfcl
        refine ⟨fcl, rfl, by simp [fcmConstructions], ?_⟩
        intro cl2 m hmem
        simp at hmem
        exact hmem.1

/-- SendFirebasePush touches neither the APNs cache nor any APNs event. -/
theorem sendFirebasePush_apnsStep (w : World) (c : PushClient)
    (deviceToken title body imageURL externalID : String) :
    apnsStep c (SendFirebasePush w c deviceToken title body imageURL externalID).state
      (SendFirebasePush w c deviceToken title body imageURL externalID).trace := by
  have hchars := getFCMClient_chars w c
  have hapns : (SendFirebasePush w c deviceToken title body imageURL externalID).state.apnsClient =
      c.apnsClient ∧
      apnsConstructions (SendFirebasePush w c deviceToken title body imageURL externalID).trace =
        [] ∧
      ∀ cl2 n, Event.applePushed cl2 n ∉
        (SendFirebasePush w c deviceToken title body imageURL externalID).trace := by
    rcases sendFirebasePush_trace_chars w c deviceToken title body imageURL externalID with
      ⟨htr, hst⟩ | ⟨fcl, hres, htr, hst⟩ <;>
      rcases hc : c.fcmClient with _ | cl0
    · rcases hchars.2 hc with ⟨e, hg⟩ | ⟨cl, hg⟩ <;> rw [htr, hst, hg] <;>
        exact ⟨rfl, rfl, by simp⟩
    · rw [htr, hst, hchars.1 cl0 hc]
      exact ⟨rfl, rfl, by simp⟩
    · rcases hchars.2 hc with ⟨e, hg⟩ | ⟨cl, hg⟩
      · rw [hg] at hres
        exact absurd hres (by simp)
      · rw [htr, hst, hg]
        exact ⟨rfl, by simp [apnsConstructions], by simp⟩
    · rw [htr, hst, hchars.1 cl0 hc]
      exact ⟨rfl, by simp [apnsConstructions], by simp⟩
  obtain ⟨hst, hcon, hnomem⟩ := hapns
  constructor
  · intro cl hc
    rw [hst]
    exact ⟨hc, hcon, fun cl2 n hmem => absurd hmem (hnomem cl2 n)⟩
  · intro hc
    left
    rw [hst]
    exact ⟨hc, hcon, hnomem⟩

/-- apnsConstructions distributes over trace concatenation. -/
theorem apnsConstructions_append (t1 t2 : List Event) :
    apnsConstructions (t1 ++ t2) = apnsConstructions t1 ++ apnsConstructions t2 := by
  simp [apnsConstructions]

/-- fcmConstructions distributes over trace concatenation. -/
theorem fcmConstructions_append (t1 t2 : List Event) :
    fcmConstructions (t1 ++ t2) = fcmConstructions t1 ++ fcmConstructions t2 := by
  simp [fcmConstructions]

/-- The empty execution satisfies the APNs cache contract. -/
theorem apnsStep_refl (c : PushClient) : apnsStep c c [] :=
  ⟨fun _ hc => ⟨hc, rfl, by simp⟩, fun hc => Or.inl ⟨hc, rfl, by simp⟩⟩

/-- The empty execution satisfies the FCM cache contract. -/
theorem fcmStep_refl (c : PushClient) : fcmStep c c [] :=
  ⟨fun _ hc => ⟨hc, rfl, by simp⟩, fun hc => Or.inl ⟨hc, rfl, by simp⟩⟩

/-- The APNs cache contract composes over consecutive executions. -/
theorem apnsStep_comp (c c1 c2 : PushClient) (t1 t2 : List Event)
    (h1 : apnsStep c c1 t1) (h2 : apnsStep c1 c2 t2) : apnsStep c c2 (t1 ++ t2) := by
  constructor
  · intro cl hc
    obtain ⟨ha1, hb1, hp1⟩ := h1.1 cl hc
    obtain ⟨ha2, hb2, hp2⟩ := h2.1 cl ha1
    refine ⟨ha2, by rw [apnsConstructions_append, hb1, hb2]; rfl, ?_⟩
    intro cl2 n hmem
    rcases List.mem_append.1 hmem with h | h
    · exact hp1 cl2 n h
    · exact hp2 cl2 n h
  · intro hc
    rcases h1.2 hc with ⟨hn1, hb1, hp1⟩ | ⟨cl0, hs1, hb1, hp1⟩
    · rcases h2.2 hn1 with ⟨hn2, hb2, hp2⟩ | ⟨cl0, hs2, hb2, hp2⟩
      · left
        refine ⟨hn2, by rw [apnsConstructions_append, hb1, hb2]; rfl, ?_⟩
        intro cl2 n hmem
        rcases List.mem_append.1 hmem with h | h
        · exact hp1 cl2 n h
        · exact hp2 cl2 n h
      · right
        refine ⟨cl0, hs2, by rw [apnsConstructions_append, hb1, hb2]; rfl, ?_⟩
        intro cl2 n hmem
        rcases List.mem_append.1 hmem with h | h
        · exact absurd h (hp1 cl2 n)
        · exact hp2 cl2 n h
    · obtain ⟨hs2, hb2, hp2⟩ := h2.1 cl0 hs1
      right
      refine ⟨cl0, hs2, by rw [apnsConstructions_append, hb1, hb2]; rfl, ?_⟩
      intro cl2 n hmem
      rcases List.mem_append.1 hmem with h | h
      · exact hp1 cl2 n h
      · exact hp2 cl2 n h

/-- The FCM cache contract composes over consecutive executions. -/
theorem fcmStep_comp (c c1 c2 : PushClient) (t1 t2 : List Event)
    (h1 : fcmStep c c1 t1) (h2 : fcmStep c1 c2 t2) : fcmStep c c2 (t1 ++ t2) := by
  constructor
  · intro cl hc
    obtain ⟨ha1, hb1, hp1⟩ := h1.1 cl hc
    obtain ⟨ha2, hb2, hp2⟩ := h2.1 cl ha1
    refine ⟨ha2, by rw [fcmConstructions_append, hb1, hb2]; rfl, ?_⟩
    intro cl2 m hmem
    rcases List.mem_append.1 hmem with h | h
    · exact hp1 cl2 m h
    · exact hp2 cl2 m h
  · intro hc
    rcases h1.2 hc with ⟨hn1, hb1, hp1⟩ | ⟨cl0, hs1, hb1, hp1⟩
    · rcases h2.2 hn1 with ⟨hn2, hb2, hp2⟩ | ⟨cl0, hs2, hb2, hp2⟩
      · left
        refine ⟨hn2, by rw [fcmConstructions_append, hb1, hb2]; rfl, ?_⟩
        intro cl2 m hmem
        rcases List.mem_append.1 hmem with h | h
        · exact hp1 cl2 m h
        · exact hp2 cl2 m h
      · right
        refine ⟨cl0, hs2, by rw [fcmConstructions_append, hb1, hb2]; rfl, ?_⟩
        intro cl2 m hmem
        rcases List.mem_append.1 hmem with h | h
        · exact absurd h (hp1 cl2 m)
        · exact hp2 cl2 m h
    · obtain ⟨hs2, hb2, hp2⟩ := h2.1 cl0 hs1
      right
      refine ⟨cl0, hs2, by rw [fcmConstructions_append, hb1, hb2]; rfl, ?_⟩
      intro cl2 m hmem
      rcases List.mem_append.1 hmem with h | h
      · exact hp1 cl2 m h
      · exact hp2 cl2 m h

/-- Every single send satisfies both cache contracts. -/
theorem runOp_steps (w : World) (c : PushClient) (op : Op) :
    apnsStep c (runOp w c op).state (runOp w c op).trace ∧
    fcmStep c (runOp w c op).state (runOp w c op).trace := by
  cases op with
  | apple deviceToken title body imageURL externalID =>
    exact ⟨sendApplePush_apnsStep w c deviceToken title body imageURL externalID,
      sendApplePush_fcmStep w c deviceToken title body imageURL externalID⟩
  | firebase deviceToken title body imageURL externalID =>
    exact ⟨sendFirebasePush_apnsStep w c deviceToken title body imageURL externalID,
      sendFirebasePush_fcmStep w c deviceToken title body imageURL externalID⟩

/-- Every sequence of sends on one client instance satisfies both cache
contracts end to end. -/
theorem runOps_steps (w : World) (c : PushClient) (ops : List Op) :
    apnsStep c (runOps w c ops).1 (runOps w c ops).2 ∧
    fcmStep c (runOps w c ops).1 (runOps w c ops).2 := by
  induction ops generalizing c with
  | nil => exact ⟨apnsStep_refl c, fcmStep_refl c⟩
  | cons op rest ih =>
    have hop := runOp_steps w c op
    have hrest := ih (runOp w c op).state
    have hdef : runOps w c (op :: rest) =
        ((runOps w (runOp w c op).state rest).1,
          (runOp w c op).trace ++ (runOps w (runOp w c op).state rest).2) := rfl
    rw [hdef]
    exact ⟨apnsStep_comp c (runOp w c op).state (runOps w (runOp w c op).state rest).1
        (runOp w c op).trace (runOps w (runOp w c op).state rest).2 hop.1 hrest.1,
      fcmStep_comp c (runOp w c op).state (runOps w (runOp w c op).state rest).1
        (runOp w c op).trace (runOps w (runOp w c op).state rest).2 hop.2 hrest.2⟩

/-- C6: over any sequence of sends on one PushClient instance, each provider
client is constructed at most once — starting from an empty cache at most
one construction event occurs; a cached handle is never reconstructed, is
still cached at the end, and is the handle used by every push of its
provider; and a handle constructed along the way (the one ending up cached)
is the handle used by every push of its provider. -/
theorem lazy_clients_constructed_at_most_once (w : World) (c : PushClient) (ops : List Op) :
    (c.apnsClient = none → (apnsConstructions (runOps w c ops).2).length ≤ 1) ∧
    (∀ cl, c.apnsClient = some cl →
      (runOps w c ops).1.apnsClient = some cl ∧
      apnsConstructions (runOps w c ops).2 = [] ∧
      ∀ cl2 n, Event.applePushed cl2 n ∈ (runOps w c ops).2 → cl2 = cl) ∧
    (∀ cl0, c.apnsClient = none → (runOps w c ops).1.apnsClient = some cl0 →
      apnsConstructions (runOps w c ops).2 = [cl0] ∧
      ∀ cl2 n, Event.applePushed cl2 n ∈ (runOps w c ops).2 → cl2 = cl0) ∧
    (c.fcmClient = none → (fcmConstructions (runOps w c ops).2).length ≤ 1) ∧
    (∀ cl, c.fcmClient = some cl →
      (runOps w c ops).1.fcmClient = some cl ∧
      fcmConstructions (runOps w c ops).2 = [] ∧
      ∀ cl2 m, Event.firebasePushed cl2 m ∈ (runOps w c ops).2 → cl2 = cl) ∧
    (∀ cl0, c.fcmClient = none → (runOps w c ops).1.fcmClient = some cl0 →
      fcmConstructions (runOps w c ops).2 = [cl0] ∧
      ∀ cl2 m, Event.firebasePushed cl2 m ∈ (runOps w c ops).2 → cl2 = cl0) := by
  have hsteps := runOps_steps w c ops
  refine ⟨?_, ?_, ?_, ?_, ?_, ?_⟩
  · intro hc
    rcases hsteps.1.2 hc with ⟨-, hb, -⟩ | ⟨cl0, -, hb, -⟩ <;> rw [hb] <;> simp
  · intro cl hc
    exact hsteps.1.1 cl hc
  · intro cl0 hc hfin
    rcases hsteps.1.2 hc with ⟨hn, -, -⟩ | ⟨cl1, hs, hb, hp⟩
    · rw [hn] at hfin
      exact Option.noConfusion hfin
    · rw [hs] at hfin
      have : cl1 = cl0 := Option.some.inj hfin
      subst this
      exact ⟨hb, hp⟩
  · intro hc
    rcases hsteps.2.2 hc with ⟨-, hb, -⟩ | ⟨cl0, -, hb, -⟩ <;> rw [hb] <;> simp
  · intro cl hc
    exact hsteps.2.1 cl hc
  · intro cl0 hc hfin
    rcases hsteps.2.2 hc with ⟨hn, -, -⟩ | ⟨cl1, hs, hb, hp⟩
    · rw [hn] at hfin
      exact Option.noConfusion hfin
    · rw [hs] at hfin
      have : cl1 = cl0 := Option.some.inj hfin
      subst this
      exact ⟨hb, hp⟩

/-- Witness for C6: two consecutive Apple sends on a fresh concrete client
construct the APNs client at most once. -/
theorem lazy_clients_constructed_at_most_once_witness :
    (apnsConstructions
      (runOps wWorld wClient
        [Op.apple "tok" "t" "b" "u" "x", Op.apple "tok" "t" "b" "u" "x"]).2).length ≤ 1 :=
  (lazy_clients_constructed_at_most_once wWorld wClient
    [Op.apple "tok" "t" "b" "u" "x", Op.apple "tok" "t" "b" "u" "x"]).1 rfl

/-- C8: from an empty cache and a readable key file, getAPNSClient builds
the client whose host is the development host exactly when the credential
environment string is "development" and the production host otherwise,
caches it, and every Apple push of any later send sequence on the
resulting instance — whatever the later worlds do — uses that same client. -/
theorem apns_environment_chosen_at_construction (w : World) (c : PushClient) (k : String)
    (hnil : c.apnsClient = none)
    (hkey : w.authKeyFromFile c.apnsCreds.P8AuthKeyFilePath = .ok k) :
    ∃ cl, getAPNSClient w c =
        ⟨{ c with apnsClient := some cl }, [Event.apnsConstructed cl], .ok cl⟩ ∧
      cl.Host = (if c.apnsCreds.Environment == "development" then HostDevelopment
        else HostProduction) ∧
      ∀ w2 ops cl2 n,
        Event.applePushed cl2 n ∈ (runOps w2 (getAPNSClient w c).state ops).2 → cl2 = cl := by
  refine ⟨if c.apnsCreds.Environment == "development" then
      ((NewTokenClient
        { AuthKey := k, KeyID := c.apnsCreds.P8AuthKeyID,
          TeamID := c.apnsCreds.TeamID }).Production).Development
    else
      (NewTokenClient
        { AuthKey := k, KeyID := c.apnsCreds.P8AuthKeyID,
          TeamID := c.apnsCreds.TeamID }).Production, ?_, ?_, ?_⟩
  · simp [getAPNSClient, hnil, hkey]
  · cases h : c.apnsCreds.Environment == "development" <;>
      simp [h, Client.Development, Client.Production, NewTokenClient]
  · intro w2 ops cl2 n hmem
    have hstate : (getAPNSClient w c).state.apnsClient =
        some (if c.apnsCreds.Environment == "development" then
          ((NewTokenClient
            { AuthKey := k, KeyID := c.apnsCreds.P8AuthKeyID,
              TeamID := c.apnsCreds.TeamID }).Production).Development
        else
          (NewTokenClient
            { AuthKey := k, KeyID := c.apnsCreds.P8AuthKeyID,
              TeamID := c.apnsCreds.TeamID }).Production) := by
      simp [getAPNSClient, hnil, hkey]
    exact ((runOps_steps w2 (getAPNSClient w c).state ops).1.1 _ hstate).2.2 cl2 n hmem

/-- Witness for C8: on the concrete production credentials the constructed
client exists, targets the production host and is the one every later
Apple push uses. -/
theorem apns_environment_chosen_at_construction_witness :
    ∃ cl, getAPNSClient wWorld wClient =
        ⟨{ wClient with apnsClient := some cl }, [Event.apnsConstructed cl], .ok cl⟩ ∧
      cl.Host = (if wClient.apnsCreds.Environment == "development" then HostDevelopment
        else HostProduction) ∧
      ∀ w2 ops cl2 n,
        Event.applePushed cl2 n ∈ (runOps w2 (getAPNSClient wWorld wClient).state ops).2 →
          cl2 = cl :=
  apns_environment_chosen_at_construction wWorld wClient "p8key" rfl rfl

/-- Projection of a trace event to the push it performs: the platform flag
(true for Apple) and the device token targeted.  Construction events and
log lines project to none. -/
def Event.pushTarget : Event → Option (Bool × String)
  | .applePushed _ n => some (true, n.DeviceToken)
  | .firebasePushed _ m => some (false, m.Token)
  | _ => none

/-- A world whose collaborators all succeed: key file readable, firebase
app and messaging client constructible, every APNs push accepted and sent,
every FCM send accepted. -/
def World.reliable (w : World) : Prop :=
  (∀ p, ∃ k, w.authKeyFromFile p = .ok k) ∧
  (∀ pid cf, ∃ app, w.firebaseNewApp pid cf = .ok app) ∧
  (∀ app, ∃ cl, w.appMessaging app = .ok cl) ∧
  (∀ cl n, ∃ resp, w.apnsPush cl n = .ok resp ∧ resp.Sent = true) ∧
  (∀ cl m, ∃ s, w.fcmSend cl m = .ok s)

/-- Modelled from the words of the claim, for comparison with the embedded code:
the pushes one device row is specified to produce — one Firebase push when
the Android token is present and non-empty, then one Apple push when the
iOS token is present and non-empty. -/
def rowPushes (row : DeviceRow) : List (Bool × String) :=
  (if row.pushTokenAndroid.Valid && row.pushTokenAndroid.Str != "" then
    [(false, row.pushTokenAndroid.Str)]
  else []) ++
  (if row.pushTokenIos.Valid && row.pushTokenIos.Str != "" then
    [(true, row.pushTokenIos.Str)]
  else [])

/-- In a reliable world getAPNSClient succeeds without pushing anything. -/
theorem getAPNSClient_reliable (w : World) (hw : w.reliable) (c : PushClient) :
    ∃ cl, (getAPNSClient w c).result = .ok cl ∧
      (getAPNSClient w c).trace.filterMap Event.pushTarget = [] := by
  rcases hc : c.apnsClient with _ | cl
  · obtain ⟨k, hk⟩ := hw.1 c.apnsCreds.P8AuthKeyFilePath
    rcases (getAPNSClient_chars w c).2 hc with ⟨e, he, -⟩ | ⟨cl, hg⟩
    · rw [hk] at he
      exact absurd he (by simp)
    · exact ⟨cl, by rw [hg], by rw [hg]; rfl⟩
  · exact ⟨cl, by simp [getAPNSClient, hc], by simp [getAPNSClient, hc]⟩

/-- In a reliable world getFCMClient succeeds without pushing anything. -/
theorem getFCMClient_reliable (w : World) (hw : w.reliable) (c : PushClient) :
    ∃ cl, (getFCMClient w c).result = .ok cl ∧
      (getFCMClient w c).trace.filterMap Event.pushTarget = [] := by
  rcases hc : c.fcmClient with _ | cl
  · obtain ⟨app, ha⟩ := hw.2.1 c.fcmCreds.ProjectID c.fcmCreds.CredentialsFilePath
    obtain ⟨cl, hm⟩ := hw.2.2.1 app
    refine ⟨cl, ?_, ?_⟩ <;> simp [getFCMClient, hc, ha, hm, Event.pushTarget]
  · exact ⟨cl, by simp [getFCMClient, hc], by simp [getFCMClient, hc]⟩

/-- In a reliable world SendApplePush succeeds and its trace performs
exactly one push: an Apple push at the given device token. -/
theorem sendApplePush_reliable (w : World) (hw : w.reliable) (c : PushClient)
    (deviceToken title body imageURL externalID : String) :
    (SendApplePush w c deviceToken title body imageURL externalID).result = .ok () ∧
    (SendApplePush w c deviceToken title body imageURL externalID).trace.filterMap
      Event.pushTarget = [(true, deviceToken)] := by
  obtain ⟨cl, hres, htr⟩ := getAPNSClient_reliable w hw c
  rcases hg : getAPNSClient w c with ⟨c', evs, res⟩
  rw [hg] at hres htr
  simp only at hres htr
  subst hres
  obtain ⟨resp, hp, hsent⟩ :=
    hw.2.2.2.1 cl (appleNotification c deviceToken title body imageURL externalID)
  simp only [appleNotification] at hp
  simp [SendApplePush, hg, hp, hsent, List.filterMap_append, htr, Event.pushTarget,
    appleNotification]

/-- In a reliable world SendFirebasePush succeeds and its trace performs
exactly one push: a Firebase push at the given device token. -/
theorem sendFirebasePush_reliable (w : World) (hw : w.reliable) (c : PushClient)
    (deviceToken title body imageURL externalID : String) :
    (SendFirebasePush w c deviceToken title body imageURL externalID).result = .ok () ∧
    (SendFirebasePush w c deviceToken title body imageURL externalID).trace.filterMap
      Event.pushTarget = [(false, deviceToken)] := by
  obtain ⟨cl, hres, htr⟩ := getFCMClient_reliable w hw c
  rcases hg : getFCMClient w c with ⟨c', evs, res⟩
  rw [hg] at hres htr
  simp only at hres htr
  subst hres
  obtain ⟨s, hs⟩ := hw.2.2.2.2 cl (firebaseMessage deviceToken title body imageURL externalID)
  simp only [firebaseMessage] at hs
  simp [SendFirebasePush, hg, hs, List.filterMap_append, htr, Event.pushTarget,
    firebaseMessage]

/-- In a reliable world the row fan-out succeeds and its pushes are, in
order, exactly the specified pushes of each row. -/
theorem sendUserPushRows_reliable (w : World) (hw : w.reliable) (rows : List DeviceRow)
    (c : PushClient) (title body imageURL externalID : String) :
    (sendUserPushRows w c (rows.map Except.ok) title body imageURL externalID).result =
      .ok () ∧
    (sendUserPushRows w c (rows.map Except.ok) title body imageURL externalID).trace.filterMap
      Event.pushTarget = rows.flatMap rowPushes := by
  induction rows generalizing c with
  | nil => exact ⟨rfl, rfl⟩
  | cons row rest ih =>
    cases ha : row.pushTokenAndroid.Valid && row.pushTokenAndroid.Str != "" with
    | false =>
      cases hi : row.pushTokenIos.Valid && row.pushTokenIos.Str != "" with
      | false =>
        rcases hrec : sendUserPushRows w c (rest.map Except.ok) title body imageURL externalID
          with ⟨c3, evs3, r⟩
        have hih := ih c
        rw [hrec] at hih
        simp only at hih
        simp [sendUserPushRows, ha, hi, hrec, rowPushes, hih.1, hih.2]
      | true =>
        rcases hA : SendApplePush w c row.pushTokenIos.Str title body imageURL externalID
          with ⟨c2, evs2, res2⟩
        have hAr := sendApplePush_reliable w hw c row.pushTokenIos.Str title body imageURL
          externalID
        rw [hA] at hAr
        simp only at hAr
        obtain ⟨hres2, htr2⟩ := hAr
        subst hres2
        rcases hrec : sendUserPushRows w c2 (rest.map Except.ok) title body imageURL externalID
          with ⟨c3, evs3, r⟩
        have hih := ih c2
        rw [hrec] at hih
        simp only at hih
        simp [sendUserPushRows, ha, hi, hA, hrec, rowPushes, List.filterMap_append, htr2,
          hih.1, hih.2]
    | true =>
      rcases hF : SendFirebasePush w c row.pushTokenAndroid.Str title body imageURL externalID
        with ⟨c1, evs1, res1⟩
      have hFr := sendFirebasePush_reliable w hw c row.pushTokenAndroid.Str title body imageURL
        externalID
      rw [hF] at hFr
      simp only at hFr
      obtain ⟨hres1, htr1⟩ := hFr
      subst hres1
      cases hi : row.pushTokenIos.Valid && row.pushTokenIos.Str != "" with
      | false =>
        rcases hrec : sendUserPushRows w c1 (rest.map Except.ok) title body imageURL externalID
          with ⟨c3, evs3, r⟩
        have hih := ih c1
        rw [hrec] at hih
        simp only at hih
        simp [sendUserPushRows, ha, hi, hF, hrec, rowPushes, List.filterMap_append, htr1,
          hih.1, hih.2]
      | true =>
        rcases hA : SendApplePush w c1 row.pushTokenIos.Str title body imageURL externalID
          with ⟨c2, evs2, res2⟩
        have hAr := sendApplePush_reliable w hw c1 row.pushTokenIos.Str title body imageURL
          externalID
        rw [hA] at hAr
        simp only at hAr
        obtain ⟨hres2, htr2⟩ := hAr
        subst hres2
        rcases hrec : sendUserPushRows w c2 (rest.map Except.ok) title body imageURL externalID
          with ⟨c3, evs3, r⟩
        have hih := ih c2
        rw [hrec] at hih
        simp only at hih
        simp [sendUserPushRows, ha, hi, hF, hA, hrec, rowPushes, List.filterMap_append,
          htr1, htr2, hih.1, hih.2]

/-- C5: when the store returns a row sequence for the user, SendUserPush in
a reliable world performs, in order, one Firebase push per present
non-empty Android token and then one Apple push per present non-empty iOS
token of each row and succeeds; and the first failing send aborts the
remaining fan-out with its error returned to the caller unchanged —
whether it is the Firebase send of a row, the Apple send following the
successful Firebase send of that row, or the Apple send of a row whose
Android token is absent or empty (an iOS-only row). -/
theorem sendUserPush_fanout_per_row :
    (∀ (w : World) (c : PushClient) (rows : List DeviceRow)
      (userID title body imageURL externalID : String), w.reliable →
      (SendUserPush { w with queryUserDevice := fun _ => .ok (rows.map Except.ok) }
        c userID title body imageURL externalID).result = .ok () ∧
      (SendUserPush { w with queryUserDevice := fun _ => .ok (rows.map Except.ok) }
        c userID title body imageURL externalID).trace.filterMap Event.pushTarget =
        rows.flatMap rowPushes) ∧
    (∀ (w : World) (c : PushClient) (row : DeviceRow) (rest : List (Except GoError DeviceRow))
      (title body imageURL externalID : String) (e : GoError),
      (row.pushTokenAndroid.Valid && row.pushTokenAndroid.Str != "") = true →
      (SendFirebasePush w c row.pushTokenAndroid.Str title body imageURL externalID).result =
        .error e →
      sendUserPushRows w c (Except.ok row :: rest) title body imageURL externalID =
        ⟨(SendFirebasePush w c row.pushTokenAndroid.Str title body imageURL externalID).state,
          (SendFirebasePush w c row.pushTokenAndroid.Str title body imageURL externalID).trace,
          .error e⟩) ∧
    (∀ (w : World) (c : PushClient) (row : DeviceRow) (rest : List (Except GoError DeviceRow))
      (title body imageURL externalID : String) (e : GoError),
      (row.pushTokenAndroid.Valid && row.pushTokenAndroid.Str != "") = true →
      (row.pushTokenIos.Valid && row.pushTokenIos.Str != "") = true →
      (SendFirebasePush w c row.pushTokenAndroid.Str title body imageURL externalID).result =
        .ok () →
      (SendApplePush w
        (SendFirebasePush w c row.pushTokenAndroid.Str title body imageURL externalID).state
        row.pushTokenIos.Str title body imageURL externalID).result = .error e →
      (sendUserPushRows w c (Except.ok row :: rest) title body imageURL externalID).result =
        .error e ∧
      (sendUserPushRows w c (Except.ok row :: rest) title body imageURL externalID).trace =
        (SendFirebasePush w c row.pushTokenAndroid.Str title body imageURL externalID).trace ++
        (SendApplePush w
          (SendFirebasePush w c row.pushTokenAndroid.Str title body imageURL externalID).state
          row.pushTokenIos.Str title body imageURL externalID).trace) ∧
    (∀ (w : World) (c : PushClient) (row : DeviceRow) (rest : List (Except GoError DeviceRow))
      (title body imageURL externalID : String) (e : GoError),
      (row.pushTokenAndroid.Valid && row.pushTokenAndroid.Str != "") = false →
      (row.pushTokenIos.Valid && row.pushTokenIos.Str != "") = true →
      (SendApplePush w c row.pushTokenIos.Str title body imageURL externalID).result =
        .error e →
      sendUserPushRows w c (Except.ok row :: rest) title body imageURL externalID =
        ⟨(SendApplePush w c row.pushTokenIos.Str title body imageURL externalID).state,
          (SendApplePush w c row.pushTokenIos.Str title body imageURL externalID).trace,
          .error e⟩) := by
  refine ⟨fun w c rows userID title body imageURL externalID hw => ?_,
    fun w c row rest title body imageURL externalID e ha hres => ?_,
    fun w c row rest title body imageURL externalID e ha hi hok herr => ?_,
    fun w c row rest title body imageURL externalID e ha hi herr => ?_⟩
  · have hw2 : ({ w with queryUserDevice := fun _ => .ok (rows.map Except.ok) } : World).reliable :=
      hw
    exact sendUserPushRows_reliable _ hw2 rows c title body imageURL externalID
  · rcases hF : SendFirebasePush w c row.pushTokenAndroid.Str title body imageURL externalID
      with ⟨c1, evs1, res1⟩
    rw [hF] at hres
    simp only at hres
    subst hres
    simp [sendUserPushRows, ha, hF]
  · rcases hF : SendFirebasePush w c row.pushTokenAndroid.Str title body imageURL externalID
      with ⟨c1, evs1, res1⟩
    rw [hF] at hok herr
    simp only at hok herr
    subst hok
    rcases hA : SendApplePush w c1 row.pushTokenIos.Str title body imageURL externalID
      with ⟨c2, evs2, res2⟩
    rw [hA] at herr
    simp only at herr
    subst herr
    constructor <;> simp [sendUserPushRows, ha, hi, hF, hA]
  · rcases hA : SendApplePush w c row.pushTokenIos.Str title body imageURL externalID
      with ⟨c2, evs2, res2⟩
    rw [hA] at herr
    simp only at herr
    subst herr
    simp [sendUserPushRows, ha, hi, hA]

/-- A device row with both tokens present, for witnesses. -/
def wRow : DeviceRow :=
  { id := "d1", pushTokenAndroid := { Valid := true, Str := "tok-android" },
    pushTokenIos := { Valid := true, Str := "tok-ios" } }

/-- The concrete witness world is reliable. -/
theorem wWorld_reliable : wWorld.reliable :=
  ⟨fun _ => ⟨"p8key", rfl⟩, fun _ _ => ⟨7, rfl⟩, fun _ => ⟨42, rfl⟩,
    fun _ _ => ⟨{ StatusCode := 200, Reason := "" }, rfl, rfl⟩, fun _ _ => ⟨"msg-id-1", rfl⟩⟩

/-- Witness for C5: one row with both tokens yields exactly one Firebase
push then one Apple push and SendUserPush succeeds. -/
theorem sendUserPush_fanout_per_row_witness :
    (SendUserPush { wWorld with queryUserDevice := fun _ => .ok ([wRow].map Except.ok) }
      wClient "u1" "Hi" "there" "" "x1").result = .ok () ∧
    (SendUserPush { wWorld with queryUserDevice := fun _ => .ok ([wRow].map Except.ok) }
      wClient "u1" "Hi" "there" "" "x1").trace.filterMap Event.pushTarget =
      [wRow].flatMap rowPushes :=
  sendUserPush_fanout_per_row.1 wWorld wClient [wRow] "u1" "Hi" "there" "" "x1" wWorld_reliable

end Kpf
